import Mathlib

/-!
Shallow embedding of `openrlhf/models/model.py` (reward / critic model
construction and forward passes) and proofs about it.

Modelling conventions:
* Tensors are nested lists over `ℚ` (exact arithmetic stands in for the
  framework's floating point); a `(batch, seq)` tensor is `List (List ℚ)`,
  a `(batch, seq, hidden)` tensor is `List (List (List ℚ))`.
* The pretrained backbone is a black box: a forward pass receives the backbone's
  `last_hidden_state` output directly, together with the attention mask it was
  called with.  Everything downstream of the backbone is embedded faithfully.
* Python indexing errors that the claims never exercise are modelled by total
  functions with default values; theorems carry the in-bounds hypotheses that
  make the defaults irrelevant.  Python exceptions that a claim is *about*
  (`assert`, attribute errors on `None`, failed registry lookup) are modelled
  with `Except`.
-/

set_option autoImplicit false

namespace OpenRLHF

/-- Row dot product: the 1-output `nn.Linear(hidden_size, 1, bias=False)` value
head applied to one hidden-state vector. -/
def dot (w x : List ℚ) : ℚ :=
  (List.zipWith (fun a b => a * b) w x).sum

/-- Python `t.size(1)` of a rectangular 2-d tensor modelled as a list of rows. -/
def pySize1 {α : Type} (t : List (List α)) : ℕ :=
  (t.headD []).length

/-- Python slice `row[:-1]` (drop the last entry; empty stays empty). -/
def pyDropLast {α : Type} (row : List α) : List α :=
  row.take (row.length - 1)

/-- Python slice `row[-n:]`: for `n = 0` this is `row[0:]`, i.e. the whole
row; for `n > 0` it is the last `n` entries (all of them when `n` exceeds the
length, matching Python's clamping of negative start indices). -/
def pyTailSlice {α : Type} (n : ℕ) (row : List α) : List α :=
  if n = 0 then row else row.drop (row.length - n)

/-- Python indexing `row[-1]` (last entry; junk default on the empty row,
where Python would raise `IndexError`). -/
def pyLast (row : List ℚ) : ℚ :=
  row.getD (row.length - 1) 0

/-- The fold `foldr max 0`, the maximum of a list of naturals (0 on empty). -/
def maxList (l : List ℕ) : ℕ :=
  l.foldr max 0

/-- Model of `torch.argmax` along a row: index of the *first* occurrence of the
maximum (0 on the empty row, where torch would raise). -/
def argmaxFirst : List ℕ → ℕ
  | [] => 0
  | x :: xs => if maxList xs > x then argmaxFirst xs + 1 else 0

/-- Spec-side description used by the claims: the highest index whose mask
entry is 1 (meaningful when the row contains a 1). -/
def lastOneIdx (row : List ℕ) : ℕ :=
  row.length - 1 - row.reverse.findIdx (fun x => x == 1)

/-- State shared by both generated `LLMForSequenceRegression` classes: the
value-head weight row, the `normalize_reward` flag and the `mean`/`std`
buffers set in `__init__`, plus the `nn.Module` training flag. -/
structure RewardModel where
  value_head : List ℚ
  normalize_reward : Bool
  mean : ℚ
  std : ℚ
  training : Bool

/-- Configuration fields read by the generated classes' `__init__`
(`config.normalize_reward`, and the optional `mean` / `std` attributes of
`config.json`). -/
structure RMConfig where
  hidden_size : ℕ
  normalize_reward : Bool
  mean : Option ℚ
  std : Option ℚ

/-- Constructor (`__init__`) of the reward-model class (model.py lines 144-158): buffers
default to `mean = 0`, `std = 1`; if the config has a `mean` attribute, both
are overwritten from the config (reading `config.std` raises when only `mean`
is present).  The value-head weight row `w` comes from the checkpoint and is
passed in. -/
def reward_model_init (config : RMConfig) (w : List ℚ) (training : Bool) :
    Except String RewardModel :=
  match config.mean with
  | none => .ok ⟨w, config.normalize_reward, 0, 1, training⟩
  | some m =>
    match config.std with
    | none => .error "AttributeError: config has no attribute std"
    | some s => .ok ⟨w, config.normalize_reward, m, s, training⟩

/-- Constructor (`__init__`) of the critic-model class (model.py lines 202-216); the body
is textually identical to the reward-model `__init__`. -/
def critic_model_init (config : RMConfig) (w : List ℚ) (training : Bool) :
    Except String RewardModel :=
  match config.mean with
  | none => .ok ⟨w, config.normalize_reward, 0, 1, training⟩
  | some m =>
    match config.std with
    | none => .error "AttributeError: config has no attribute std"
    | some s => .ok ⟨w, config.normalize_reward, m, s, training⟩

/-- Forward pass of the reward model (model.py lines 167-193), downstream of
the backbone: `last_hidden_state` is the black-box backbone's output for this
call's `input_ids` and `attention_mask`.  `values = value_head(h).squeeze(-1)`;
in training mode the reward is `values[:, -1]` (the attention mask is not
consulted); in eval mode the per-row index of the last mask-1 entry is found
via `fliplr` + `argmax` and gathered, then normalized iff `normalize_reward`.
The `return_output` passthrough of the raw backbone outputs (lines 190-193)
returns the same reward tensor either way and is not modelled. -/
def reward_forward (M : RewardModel) (last_hidden_state : List (List (List ℚ)))
    (attention_mask : Option (List (List ℕ))) : Except String (List ℚ) :=
  let values := last_hidden_state.map (fun row => row.map (fun h => dot M.value_head h))
  if M.training then
    .ok (values.map pyLast)
  else
    match attention_mask with
    | none => .error "AttributeError: NoneType object has no attribute size"
    | some am =>
      let L := pySize1 am
      let eos_indices := am.map (fun row => L - 1 - argmaxFirst row.reverse)
      let reward := List.zipWith (fun v i => v.getD i 0) values eos_indices
      if M.normalize_reward then
        .ok (reward.map (fun x => (x - M.mean) / M.std))
      else
        .ok reward

/-- Result of the critic forward pass: `raw` is the `return outputs` branch
(taken only when `num_actions is None`), `withOutputs` the
`(values[:, -num_actions:], outputs)` branch, `valuesOnly` the plain
`values[:, -num_actions:]` return.  The raw backbone `outputs` dict is
represented by its only consumed field, `last_hidden_state`. -/
inductive CriticResult where
  | raw (outputs : List (List (List ℚ)))
  | withOutputs (values : List (List ℚ)) (outputs : List (List (List ℚ)))
  | valuesOnly (values : List (List ℚ))
deriving DecidableEq

/-- Forward pass of the critic model (model.py lines 225-247), downstream of
the backbone.  Here `values = value_head(h).squeeze(-1)[:, :-1]`; then
`num_actions = action_mask.size(1)` — an attribute error when `action_mask`
is `None`, and a plain `int` (never `None`) otherwise, modelled as `some _`;
then optional unconditional normalization; finally the
`num_actions is None` test selects the returned slice.  The forward body
never consults `self.training`. -/
def critic_forward (M : RewardModel) (last_hidden_state : List (List (List ℚ)))
    (action_mask : Option (List (List ℕ))) (return_output : Bool) :
    Except String CriticResult :=
  let values0 := last_hidden_state.map (fun row => row.map (fun h => dot M.value_head h))
  let values1 := values0.map pyDropLast
  match action_mask with
  | none => .error "AttributeError: NoneType object has no attribute size"
  | some am =>
    let num_actions : Option ℕ := some (pySize1 am)
    let values2 :=
      if M.normalize_reward then
        values1.map (fun row => row.map (fun v => (v - M.mean) / M.std))
      else values1
    if return_output then
      match num_actions with
      | none => .ok (.raw last_hidden_state)
      | some n => .ok (.withOutputs (values2.map (pyTailSlice n)) last_hidden_state)
    else
      match num_actions with
      | none => .error "TypeError: bad operand type for unary -: NoneType"
      | some n => .ok (.valuesOnly (values2.map (pyTailSlice n)))

/-- The `std` argument passed to `value_head.weight.data.normal_` when
`init_value_head` is set (model.py lines 133 and 135, identical in the
ZeRO-3 and plain branches): `1 / (config.hidden_size + 1)`. -/
def value_head_init_std (hidden_size : ℕ) : ℚ :=
  1 / (hidden_size + 1)

/-- Class-name derivation for the dynamic (modelling-file) fallback,
model.py lines 67-79: special cases for QWen and InternLM, otherwise strip
everything from the first `"For"` of the causal-LM class name to build
`<Stem>Model` / `<Stem>PreTrainedModel`, preferring the config's
`auto_map["AutoModel"]` entry (its part after the dot) for the base model
name when present.  Returns `(auto_model_name, pretrained_model_name)`. -/
def derive_model_names (causal_model_name : String)
    (auto_map_automodel : Option String) : Except String (String × String) :=
  if causal_model_name = "QWenLMHeadModel" then
    .ok ("QWenModel", "QWenPreTrainedModel")
  else if causal_model_name = "InternLMForCausalLM" then
    .ok ("InternLMModel", "InternLMPreTrainedModel")
  else
    let stem := (causal_model_name.splitOn "For").headD ""
    let pretrained_model_name := stem ++ "PreTrainedModel"
    match auto_map_automodel with
    | none => .ok (stem ++ "Model", pretrained_model_name)
    | some entry =>
      match (entry.splitOn ".").get? 1 with
      | none => .error "IndexError: list index out of range"
      | some auto_model_name => .ok (auto_model_name, pretrained_model_name)

/-- Environment of external effects consumed by
`get_llm_for_sequence_regression`: the architecture-registry lookup together
with the class construction inside the `try` block (lines 57-62), the
checkpoint config's `auto_map` entries, the dynamic-module class loader
keyed by `"module_file.ClassName"` (lines 83-86), the checkpoint load
(`cls_class.from_pretrained`, line 99) and the config's hidden size. -/
structure LoadEnv where
  registry : Except String Unit
  auto_map_causal_lm : Option String
  auto_map_automodel : Option String
  dynamic_module : String → Except String Unit
  from_pretrained : Except String Unit
  hidden_size : ℕ

/-- Observable effects of a `get_llm_for_sequence_regression` call, in
order: the `AutoConfig.from_pretrained` config load (line 52), the
`print` diagnostic on registry failure (line 64), the weight load
(line 99) and the value-head re-initialization with the `std` it draws
with (lines 128-135). -/
inductive Event where
  | loadConfig
  | printFallback
  | loadWeights
  | initValueHead (std : ℚ)
deriving DecidableEq

/-- The parts of the constructed model that the claims observe. -/
structure LoadedModel where
  model_type : String
  normalize_reward : Bool
  value_head_init_std : Option ℚ
deriving DecidableEq

/-- The `except` branch of model.py lines 63-90: split
`config.auto_map["AutoModelForCausalLM"]` at the dot into module file and
causal class name (a `KeyError` when absent, an unpacking error unless there
are exactly two parts), derive the class names, then resolve both classes
from the checkpoint's modelling file; any failure propagates. -/
def resolve_from_modelling_file (env : LoadEnv) : Except String (String × String) :=
  match env.auto_map_causal_lm with
  | none => .error "KeyError: AutoModelForCausalLM"
  | some entry =>
    match entry.splitOn "." with
    | [module_file, causal_model_name] =>
      match derive_model_names causal_model_name env.auto_map_automodel with
      | .error e => .error e
      | .ok (auto_model_name, pretrained_model_name) =>
        match env.dynamic_module (module_file ++ "." ++ pretrained_model_name) with
        | .error e => .error e
        | .ok _ =>
          match env.dynamic_module (module_file ++ "." ++ auto_model_name) with
          | .error e => .error e
          | .ok _ => .ok (auto_model_name, pretrained_model_name)
    | _ => .error "ValueError: not enough values to unpack"

/-- The function `get_llm_for_sequence_regression` (model.py lines 20-137), reduced to
its control flow over the external effects in `env`: the entry assertion on
`model_type`; the config load; the registry lookup with dynamic fallback;
the weight load; the optional value-head initialization.  LoRA wrapping and
the Mixtral router-logits toggle do not affect the observed fields and are
not modelled; the ZeRO-3 gather around the value-head initialization uses
the same `std` as the plain branch and is likewise elided.

`load_and_init` is the tail of the function after class resolution
(lines 99-137): the `cls_class.from_pretrained` weight load, then the
optional value-head initialization. -/
def load_and_init (evs : List Event) (model_type : String)
    (normalize_reward : Bool) (init_value_head : Bool) (env : LoadEnv) :
    List Event × Except String LoadedModel :=
  match env.from_pretrained with
  | .error e => (evs ++ [Event.loadWeights], .error e)
  | .ok _ =>
    let model : LoadedModel :=
      ⟨model_type, normalize_reward,
        if init_value_head then some (value_head_init_std env.hidden_size) else none⟩
    if init_value_head then
      (evs ++ [Event.loadWeights, Event.initValueHead (value_head_init_std env.hidden_size)],
        .ok model)
    else
      (evs ++ [Event.loadWeights], .ok model)

/-- Entry point: the `model_type` assertion (lines 48-50), the config load
(line 52), the registry lookup with its modelling-file fallback (lines
56-90), then `load_and_init`. -/
def get_llm_for_sequence_regression (model_type : String)
    (normalize_reward : Bool) (init_value_head : Bool) (env : LoadEnv) :
    List Event × Except String LoadedModel :=
  if model_type = "critic" ∨ model_type = "reward" then
    match env.registry with
    | .ok _ =>
      load_and_init [Event.loadConfig] model_type normalize_reward init_value_head env
    | .error _ =>
      match resolve_from_modelling_file env with
      | .ok _ =>
        load_and_init [Event.loadConfig, Event.printFallback] model_type normalize_reward
          init_value_head env
      | .error e => ([Event.loadConfig, Event.printFallback], .error e)
  else
    ([], .error ("invalid model_type: " ++ model_type ++ ", should be critic or reward."))

/-- Apply `f` to every per-token value of a critic result, leaving the raw
backbone outputs untouched (used to state how normalization acts on the
forward result). -/
def mapCriticValues (f : ℚ → ℚ) : CriticResult → CriticResult
  | .raw outputs => .raw outputs
  | .withOutputs values outputs => .withOutputs (values.map (fun row => row.map f)) outputs
  | .valuesOnly values => .valuesOnly (values.map (fun row => row.map f))

/-- The value of one token after the critic's optional normalization step. -/
def normalizeIf (M : RewardModel) (v : ℚ) : ℚ :=
  if M.normalize_reward then (v - M.mean) / M.std else v

/-- Concrete model state used by witnesses: value head `[1]`, no
normalization, `mean = 0`, `std = 1`, eval mode. -/
def M0 : RewardModel := ⟨[1], false, 0, 1, false⟩

/-- Concrete environment: registry lookup succeeds, `hidden_size = 5`. -/
def envOk : LoadEnv := ⟨.ok (), none, none, fun _ => .ok (), .ok (), 5⟩

/-- Concrete environment: registry lookup succeeds, `hidden_size = 3`. -/
def envH3 : LoadEnv := ⟨.ok (), none, none, fun _ => .ok (), .ok (), 3⟩

/-- Concrete environment: registry lookup fails, and the dynamic
modelling-file path resolves both classes. -/
def envFallback : LoadEnv :=
  ⟨.error "boom", some "modeling_foo.FooForCausalLM", none, fun _ => .ok (), .ok (), 3⟩

section Helpers

lemma getD_of_lt {α : Type} (l : List α) (i : ℕ) (d : α) (h : i < l.length) :
    l.getD i d = l[i] := by
  simp [List.getD_eq_getElem?_getD, List.getElem?_eq_getElem h]

lemma dot_nil (w : List ℚ) : dot w [] = 0 := by
  simp [dot]

lemma pyLast_map_dot (w : List ℚ) (row : List (List ℚ)) :
    pyLast (row.map (fun h => dot w h)) = dot w (row.getD (row.length - 1) []) := by
  cases row with
  | nil => simp [pyLast, dot]
  | cons a t =>
    have hlt : (a :: t).length - 1 < (a :: t).length := by simp
    rw [pyLast, List.length_map,
      getD_of_lt _ _ _ (by simp), getD_of_lt _ _ _ hlt, List.getElem_map]

lemma maxList_le {l : List ℕ} {n : ℕ} (h : ∀ x ∈ l, x ≤ n) : maxList l ≤ n := by
  induction l with
  | nil => simp [maxList]
  | cons x t ih =>
    have hx : x ≤ n := h x (by simp)
    have ht : maxList t ≤ n := ih (fun y hy => h y (by simp [hy]))
    simpa [maxList] using max_le hx ht

lemma le_maxList_of_mem {l : List ℕ} {a : ℕ} (h : a ∈ l) : a ≤ maxList l := by
  induction l with
  | nil => cases h
  | cons x t ih =>
    rcases List.mem_cons.mp h with rfl | h1
    · exact le_max_left _ _
    · exact le_trans (ih h1) (le_max_right _ _)

lemma argmaxFirst_eq_findIdx_one {xs : List ℕ} (hle : ∀ x ∈ xs, x ≤ 1)
    (hmem : 1 ∈ xs) : argmaxFirst xs = xs.findIdx (fun x => x == 1) := by
  induction xs with
  | nil => cases hmem
  | cons x t ih =>
    by_cases hx : x = 1
    · subst hx
      have h1 : maxList t ≤ 1 := maxList_le (fun y hy => hle y (by simp [hy]))
      have h2 : ¬ maxList t > 1 := by omega
      simp [argmaxFirst, h2, List.findIdx_cons]
    · have hx0 : x = 0 := by
        have := hle x (by simp)
        omega
      subst hx0
      have hmem1 : 1 ∈ t := by
        rcases List.mem_cons.mp hmem with h | h
        · omega
        · exact h
      have hgt : maxList t > 0 :=
        lt_of_lt_of_le one_pos (le_maxList_of_mem hmem1)
      have ihv := ih (fun y hy => hle y (by simp [hy])) hmem1
      simp [argmaxFirst, hgt, List.findIdx_cons, ihv]

lemma findIdx_one_reverse_lt {row : List ℕ} (hmem : 1 ∈ row) :
    row.reverse.findIdx (fun x => x == 1) < row.length := by
  have h : row.reverse.findIdx (fun x => x == 1) < row.reverse.length :=
    List.findIdx_lt_length_of_exists ⟨1, by simpa using hmem, by simp⟩
  simpa using h

lemma lastOneIdx_lt_length {row : List ℕ} (hmem : 1 ∈ row) :
    lastOneIdx row < row.length := by
  have h0 : 0 < row.length := List.length_pos.mpr (by rintro rfl; cases hmem)
  unfold lastOneIdx
  omega

lemma getD_lastOneIdx_eq_one {row : List ℕ} (hmem : 1 ∈ row) :
    row.getD (lastOneIdx row) 0 = 1 := by
  have hf : row.reverse.findIdx (fun x => x == 1) < row.length := findIdx_one_reverse_lt hmem
  have hf2 : row.reverse.findIdx (fun x => x == 1) < row.reverse.length := by simpa using hf
  have h1 : (row.reverse[row.reverse.findIdx (fun x => x == 1)] == 1) = true :=
    @List.findIdx_getElem ℕ (fun x => x == 1) row.reverse hf2
  rw [List.getElem_reverse] at h1
  have hidx : row.length - 1 - row.reverse.findIdx (fun x => x == 1) < row.length := by omega
  rw [lastOneIdx, getD_of_lt _ _ _ hidx]
  simpa using h1

lemma getD_eq_zero_of_gt_lastOneIdx {row : List ℕ} (hle : ∀ x ∈ row, x ≤ 1)
    (hmem : 1 ∈ row) {k : ℕ} (hk : lastOneIdx row < k) (hk2 : k < row.length) :
    row.getD k 0 = 0 := by
  have hflt : row.reverse.findIdx (fun x => x == 1) < row.length := findIdx_one_reverse_lt hmem
  have hi : row.length - 1 - k < row.reverse.findIdx (fun x => x == 1) := by
    unfold lastOneIdx at hk
    omega
  have h0 := List.not_of_lt_findIdx hi
  rw [List.getElem_reverse] at h0
  have hkk : row.length - 1 - (row.length - 1 - k) = k := by omega
  simp only [hkk] at h0
  have hmemk : row[k] ∈ row := List.getElem_mem hk2
  have hle1 : row[k] ≤ 1 := hle _ hmemk
  have hne : ¬ row[k] = 1 := by simpa using h0
  rw [getD_of_lt _ _ _ hk2]
  omega

lemma pyDropLast_map {α β : Type} (f : α → β) (l : List α) :
    pyDropLast (l.map f) = (pyDropLast l).map f := by
  unfold pyDropLast
  rw [List.length_map, List.map_take]

lemma pyTailSlice_map {α β : Type} (f : α → β) (n : ℕ) (l : List α) :
    pyTailSlice n (l.map f) = (pyTailSlice n l).map f := by
  unfold pyTailSlice
  split
  · rfl
  · rw [List.length_map, List.map_drop]

lemma length_pyTailSlice {α : Type} (n : ℕ) (hn : 1 ≤ n) (l : List α) (hl : n ≤ l.length) :
    (pyTailSlice n l).length = n := by
  unfold pyTailSlice
  rw [if_neg (by omega), List.length_drop]
  omega

lemma getD_pyTailSlice {α : Type} (n : ℕ) (hn : 1 ≤ n) (l : List α) (hl : n ≤ l.length)
    (j : ℕ) (hj : j < n) (d : α) :
    (pyTailSlice n l).getD j d = l.getD (l.length - n + j) d := by
  unfold pyTailSlice
  rw [if_neg (by omega)]
  have hj2 : j < (l.drop (l.length - n)).length := by
    rw [List.length_drop]
    omega
  have hidx : l.length - n + j < l.length := by omega
  rw [getD_of_lt _ _ _ hj2, getD_of_lt _ _ _ hidx, List.getElem_drop]

lemma load_and_init_trace_sound (evs : List Event) (mt : String) (nr iv : Bool)
    (env : LoadEnv) (s : ℚ)
    (hs : Event.initValueHead s ∈ (load_and_init evs mt nr iv env).1) :
    Event.initValueHead s ∈ evs ∨ s = value_head_init_std env.hidden_size := by
  revert hs
  unfold load_and_init
  cases env.from_pretrained with
  | error e =>
    intro hs
    simp only [List.mem_append, List.mem_singleton] at hs
    rcases hs with hs | hs
    · exact Or.inl hs
    · cases hs
  | ok u =>
    cases iv with
    | false =>
      intro hs
      simp only [Bool.false_eq_true, if_false, List.mem_append, List.mem_singleton] at hs
      rcases hs with hs | hs
      · exact Or.inl hs
      · cases hs
    | true =>
      intro hs
      simp only [if_true, List.mem_append, List.mem_cons, List.mem_singleton] at hs
      rcases hs with hs | hs | hs
      · exact Or.inl hs
      · cases hs
      · rcases hs with hs | hs
        · cases hs with
          | refl => exact Or.inr rfl
        · cases hs

lemma load_and_init_ok (evs : List Event) (mt : String) (nr iv : Bool)
    (env : LoadEnv) (m : LoadedModel)
    (hm : (load_and_init evs mt nr iv env).2 = .ok m) :
    m = ⟨mt, nr, if iv then some (value_head_init_std env.hidden_size) else none⟩ := by
  revert hm
  unfold load_and_init
  cases env.from_pretrained with
  | error e => intro hm; cases hm
  | ok u =>
    cases iv with
    | false => intro hm; cases hm; rfl
    | true => intro hm; cases hm; rfl

lemma getD_map {α β : Type} (f : α → β) (l : List α) (i : ℕ) (hi : i < l.length)
    (d : α) {d2 : β} : (l.map f).getD i d2 = f (l.getD i d) := by
  rw [getD_of_lt _ _ _ (by simpa using hi), getD_of_lt _ _ _ hi, List.getElem_map]

lemma getD_take {α : Type} (l : List α) (k i : ℕ) (hik : i < k) (hil : i < l.length)
    (d : α) : (l.take k).getD i d = l.getD i d := by
  have h2 : i < (l.take k).length := by
    rw [List.length_take]
    omega
  rw [getD_of_lt _ _ _ h2, getD_of_lt _ _ _ hil, List.getElem_take]

lemma getD_pyDropLast {α : Type} (l : List α) (i : ℕ) (hi : i < l.length - 1)
    (d : α) : (pyDropLast l).getD i d = l.getD i d := by
  unfold pyDropLast
  exact getD_take l _ i hi (by omega) d

lemma getD_zipWith {α β γ : Type} (f : α → β → γ) (l1 : List α) (l2 : List β) (i : ℕ)
    (h1 : i < l1.length) (h2 : i < l2.length) (d1 : α) (d2 : β) {d : γ} :
    (List.zipWith f l1 l2).getD i d = f (l1.getD i d1) (l2.getD i d2) := by
  have h : i < (List.zipWith f l1 l2).length := by
    rw [List.length_zipWith]
    omega
  rw [getD_of_lt _ _ _ h, getD_of_lt _ _ _ h1, getD_of_lt _ _ _ h2, List.getElem_zipWith]

lemma mem_load_and_init_trace (evs : List Event) (mt : String) (nr iv : Bool)
    (env : LoadEnv) (ev : Event) (h : ev ∈ evs) :
    ev ∈ (load_and_init evs mt nr iv env).1 := by
  unfold load_and_init
  cases env.from_pretrained with
  | error e => simp [h]
  | ok u =>
    cases iv with
    | true => simp [h]
    | false => simp [h]

lemma critic_values_eq (M : RewardModel) (values1 : List (List ℚ)) :
    (if M.normalize_reward then
        values1.map (fun row => row.map (fun v => (v - M.mean) / M.std))
      else values1) =
      values1.map (fun row => row.map (normalizeIf M)) := by
  by_cases hM : M.normalize_reward
  · simp [hM, normalizeIf]
  · have h : normalizeIf M = fun v => v := by
      funext v
      simp [normalizeIf, hM]
    simp [hM, h]

lemma critic_forward_valuesOnly (M : RewardModel) (hidden : List (List (List ℚ)))
    (am : List (List ℕ)) :
    critic_forward M hidden (some am) false =
      .ok (.valuesOnly ((((hidden.map (fun row => row.map (fun h => dot M.value_head h))).map
          pyDropLast).map (fun row => row.map (normalizeIf M))).map
            (pyTailSlice (pySize1 am)))) := by
  have h1 : critic_forward M hidden (some am) false =
      .ok (.valuesOnly ((if M.normalize_reward then
          ((hidden.map (fun row => row.map (fun h => dot M.value_head h))).map pyDropLast).map
            (fun row => row.map (fun v => (v - M.mean) / M.std))
        else
          (hidden.map (fun row => row.map (fun h => dot M.value_head h))).map pyDropLast).map
            (pyTailSlice (pySize1 am)))) := rfl
  rw [h1, critic_values_eq]

end Helpers

/-- C1 counterexample: at `hidden_size = 3` the `std` passed to the value
head's `normal_` initializer is `1/(3+1) = 1/4`, which differs from the
claimed `1/sqrt(3+1) = 1/2`. -/
theorem get_llm_init_value_head_std_counterexample :
    (get_llm_for_sequence_regression "reward" false true envH3).1 =
        [Event.loadConfig, Event.loadWeights, Event.initValueHead (value_head_init_std 3)] ∧
      ((value_head_init_std 3 : ℚ) : ℝ) ≠ 1 / Real.sqrt ((3 : ℝ) + 1) := by
  constructor
  · rfl
  · have h4 : Real.sqrt ((3 : ℝ) + 1) = 2 := by
      rw [show ((3 : ℝ) + 1) = 2 ^ 2 by norm_num]
      exact Real.sqrt_sq (by norm_num)
    rw [h4]
    norm_num [value_head_init_std]

/-- C1 (amended): when `get_llm_for_sequence_regression` is called with
`init_value_head = True`, the value head's weights are re-initialized from a
zero-mean Gaussian whose `std` argument equals `1 / (hidden_size + 1)`:
every `initValueHead` event in the trace carries that value, and a
successfully constructed model records it. -/
theorem get_llm_init_value_head_std (model_type : String) (nr : Bool)
    (env : LoadEnv) :
    (∀ s, Event.initValueHead s ∈
          (get_llm_for_sequence_regression model_type nr true env).1 →
        s = 1 / ((env.hidden_size : ℚ) + 1)) ∧
      ∀ m, (get_llm_for_sequence_regression model_type nr true env).2 = .ok m →
        m.value_head_init_std = some (1 / ((env.hidden_size : ℚ) + 1)) := by
  constructor
  · intro s hs
    revert hs
    unfold get_llm_for_sequence_regression
    split
    · cases env.registry with
      | ok u =>
        intro hs
        rcases load_and_init_trace_sound _ _ _ _ _ _ hs with hs | hs
        · simp at hs
        · rw [hs]
          simp [value_head_init_std]
      | error e =>
        cases hres : resolve_from_modelling_file env with
        | ok names =>
          intro hs
          rcases load_and_init_trace_sound _ _ _ _ _ _ hs with hs | hs
          · simp at hs
          · rw [hs]
            simp [value_head_init_std]
        | error e2 =>
          intro hs
          simp at hs
    · intro hs
      simp at hs
  · intro m hm
    revert hm
    unfold get_llm_for_sequence_regression
    split
    · cases env.registry with
      | ok u =>
        intro hm
        rw [load_and_init_ok _ _ _ _ _ _ hm]
        simp [value_head_init_std]
      | error e =>
        cases hres : resolve_from_modelling_file env with
        | ok names =>
          intro hm
          rw [load_and_init_ok _ _ _ _ _ _ hm]
          simp [value_head_init_std]
        | error e2 =>
          intro hm
          cases hm
    · intro hm
      cases hm

/-- Witness for C1 (amended): a concrete run with `hidden_size = 3` whose
trace contains the `initValueHead` event, to which the theorem applies. -/
theorem get_llm_init_value_head_std_witness :
    Event.initValueHead (value_head_init_std 3) ∈
        (get_llm_for_sequence_regression "reward" false true envH3).1 ∧
      value_head_init_std 3 = 1 / ((envH3.hidden_size : ℚ) + 1) := by
  have hmem : Event.initValueHead (value_head_init_std 3) ∈
      (get_llm_for_sequence_regression "reward" false true envH3).1 := by
    rw [show (get_llm_for_sequence_regression "reward" false true envH3).1 =
        [Event.loadConfig, Event.loadWeights, Event.initValueHead (value_head_init_std 3)]
      from rfl]
    simp
  exact ⟨hmem, (get_llm_init_value_head_std "reward" false envH3).1 _ hmem⟩

/-- C7: for every `model_type` other than `"reward"` and `"critic"`,
`get_llm_for_sequence_regression` fails with the entry assertion error and
performs no effect at all — in particular neither the config load nor any
`from_pretrained` weight load occurs (the event trace is empty). -/
theorem get_llm_invalid_model_type_asserts (model_type : String)
    (h : model_type ≠ "critic" ∧ model_type ≠ "reward")
    (normalize_reward init_value_head : Bool) (env : LoadEnv) :
    get_llm_for_sequence_regression model_type normalize_reward init_value_head env =
      ([], .error ("invalid model_type: " ++ model_type ++ ", should be critic or reward.")) := by
  unfold get_llm_for_sequence_regression
  rw [if_neg]
  rintro (h1 | h2)
  · exact h.1 h1
  · exact h.2 h2

/-- Witness for C7 at the concrete `model_type = "policy"`. -/
theorem get_llm_invalid_model_type_asserts_witness :
    (("policy" : String) ≠ "critic" ∧ ("policy" : String) ≠ "reward") ∧
      get_llm_for_sequence_regression "policy" false false envOk =
        ([], .error ("invalid model_type: " ++ "policy" ++ ", should be critic or reward.")) :=
  ⟨by decide, get_llm_invalid_model_type_asserts "policy" (by decide) false false envOk⟩

/-- C8: `__init__` of both generated classes stores `normalize_reward` from
the config, sets the `mean`/`std` buffers to the config's explicit values
when a `mean` attribute is present, and leaves the defaults 0 and 1 when
the config has no `mean` attribute. -/
theorem model_init_mean_std_round_trip (h : ℕ) (w : List ℚ) (t : Bool)
    (m s : ℚ) (n : Bool) (sd : Option ℚ) :
    (reward_model_init ⟨h, true, some m, some s⟩ w t = .ok ⟨w, true, m, s, t⟩ ∧
      critic_model_init ⟨h, true, some m, some s⟩ w t = .ok ⟨w, true, m, s, t⟩) ∧
    (reward_model_init ⟨h, n, none, sd⟩ w t = .ok ⟨w, n, 0, 1, t⟩ ∧
      critic_model_init ⟨h, n, none, sd⟩ w t = .ok ⟨w, n, 0, 1, t⟩) :=
  ⟨⟨rfl, rfl⟩, ⟨rfl, rfl⟩⟩

/-- C2: in training mode the reward-model forward returns, for every row,
the value-head projection of the final hidden state at the last sequence
position (index `sequence_length - 1`), and the attention mask does not
influence the result. -/
theorem reward_forward_training_last_position (M : RewardModel)
    (hidden : List (List (List ℚ))) (am am2 : Option (List (List ℕ))) :
    reward_forward {M with training := true} hidden am =
        .ok (hidden.map (fun row => dot M.value_head (row.getD (row.length - 1) []))) ∧
      reward_forward {M with training := true} hidden am =
        reward_forward {M with training := true} hidden am2 := by
  constructor
  · unfold reward_forward
    simp [List.map_map, Function.comp, pyLast_map_dot]
  · rfl

/-- C4: reward-model normalization is exactly the affine map
`x ↦ (x − mean) / std`; it is applied in evaluation mode, never in training
mode, and with `mean = 0`, `std = 1` the evaluation-mode map is the
identity. -/
theorem reward_forward_normalization (M : RewardModel)
    (hidden : List (List (List ℚ))) (am : List (List ℕ))
    (amo : Option (List (List ℕ))) :
    reward_forward {M with training := false, normalize_reward := true} hidden (some am) =
        Except.map (List.map (fun x => (x - M.mean) / M.std))
          (reward_forward {M with training := false, normalize_reward := false} hidden (some am)) ∧
      reward_forward {M with training := true, normalize_reward := true} hidden amo =
        reward_forward {M with training := true, normalize_reward := false} hidden amo ∧
      reward_forward {M with training := false, normalize_reward := true, mean := 0, std := 1}
          hidden amo =
        reward_forward {M with training := false, normalize_reward := false, mean := 0, std := 1}
          hidden amo := by
  refine ⟨rfl, rfl, ?_⟩
  cases amo with
  | none => rfl
  | some am2 =>
    unfold reward_forward
    simp

/-- C5: the critic forward pass never consults the module's training flag —
the result is identical in training and evaluation mode — and enabled
normalization is the affine map `v ↦ (v − mean) / std` applied to every
per-token value, unconditionally. -/
theorem critic_forward_mode_independent_normalization (M : RewardModel)
    (b1 b2 : Bool) (hidden : List (List (List ℚ)))
    (amo : Option (List (List ℕ))) (ro : Bool) :
    critic_forward {M with training := b1} hidden amo ro =
        critic_forward {M with training := b2} hidden amo ro ∧
      critic_forward {M with normalize_reward := true} hidden amo ro =
        Except.map (mapCriticValues (fun v => (v - M.mean) / M.std))
          (critic_forward {M with normalize_reward := false} hidden amo ro) := by
  constructor
  · rfl
  · cases amo with
    | none => rfl
    | some am =>
      unfold critic_forward
      cases ro <;>
        simp [mapCriticValues, Except.map, List.map_map, Function.comp, pyTailSlice_map]

/-- C6 counterexample: with a zero-column `action_mask` (`num_actions = 0`,
which satisfies the claim's `num_actions ≤ L − 1`), the Python slice
`values[:, -0:]` keeps the whole truncated row, so the output row has
length `L − 1 = 2`, not `num_actions = 0`. -/
theorem critic_forward_shape_counterexample :
    critic_forward M0 [[[1], [2], [3]]] (some [[]]) false =
        .ok (.valuesOnly [[1, 2]]) ∧
      ¬ ([[(1 : ℚ), 2]].getD 0 []).length = pySize1 ([[]] : List (List ℕ)) := by
  constructor
  · rw [critic_forward_valuesOnly]
    norm_num [M0, dot, pyDropLast, pyTailSlice, pySize1, normalizeIf]
  · decide

/-- C6 (amended: `1 ≤ num_actions`): for a critic forward call whose hidden
states have rows of length `L` and whose `action_mask` has
`1 ≤ num_actions ≤ L − 1` columns, the result has one row per batch entry,
each of length `num_actions`, and entry `j` of row `i` is the (optionally
normalized) value-head projection of hidden state `i` at position
`L − 1 − num_actions + j` — the last `num_actions` positions of the
`(L−1)`-truncated per-token value sequence. -/
theorem critic_forward_shape_and_slice (M : RewardModel)
    (hidden : List (List (List ℚ))) (am : List (List ℕ)) (L n : ℕ)
    (hn : 1 ≤ n) (hW : pySize1 am = n) (hnL : n ≤ L - 1)
    (hh : ∀ row ∈ hidden, row.length = L) :
    ∃ vs, critic_forward M hidden (some am) false = .ok (.valuesOnly vs) ∧
      vs.length = hidden.length ∧
      (∀ i, i < vs.length → (vs.getD i []).length = n) ∧
      ∀ i j, i < vs.length → j < n →
        (vs.getD i []).getD j 0 =
          normalizeIf M (dot M.value_head ((hidden.getD i []).getD (L - 1 - n + j) [])) := by
  subst hW
  refine ⟨_, critic_forward_valuesOnly M hidden am, by simp, ?_, ?_⟩
  · intro i hi
    simp only [List.length_map] at hi
    have hrow : (hidden.getD i []).length = L := by
      rw [getD_of_lt _ _ _ hi]
      exact hh _ (List.getElem_mem hi)
    rw [getD_map (pyTailSlice (pySize1 am)) _ i (by simp [hi]) ([] : List ℚ),
      getD_map (fun row => List.map (normalizeIf M) row) _ i (by simp [hi]) ([] : List ℚ),
      getD_map pyDropLast _ i (by simp [hi]) ([] : List ℚ),
      getD_map (fun row => List.map (fun h => dot M.value_head h) row) _ i hi
        ([] : List (List ℚ))]
    refine length_pyTailSlice _ hn _ ?_
    simp only [List.length_map, pyDropLast, List.length_take, hrow]
    omega
  · intro i j hi hj
    simp only [List.length_map] at hi
    have hrow : (hidden.getD i []).length = L := by
      rw [getD_of_lt _ _ _ hi]
      exact hh _ (List.getElem_mem hi)
    rw [getD_map (pyTailSlice (pySize1 am)) _ i (by simp [hi]) ([] : List ℚ),
      getD_map (fun row => List.map (normalizeIf M) row) _ i (by simp [hi]) ([] : List ℚ),
      getD_map pyDropLast _ i (by simp [hi]) ([] : List ℚ),
      getD_map (fun row => List.map (fun h => dot M.value_head h) row) _ i hi
        ([] : List (List ℚ))]
    have hlenB : (pyDropLast (List.map (fun h => dot M.value_head h)
        (hidden.getD i []))).length = L - 1 := by
      simp only [pyDropLast, List.length_take, List.length_map, hrow]
      omega
    rw [getD_pyTailSlice _ hn _ (by rw [List.length_map, hlenB]; omega) _ hj,
      List.length_map, hlenB,
      getD_map (normalizeIf M) _ _ (by rw [hlenB]; omega) (0 : ℚ),
      getD_pyDropLast _ _ (by rw [List.length_map, hrow]; omega) _,
      getD_map (fun h => dot M.value_head h) _ _ (by rw [hrow]; omega) ([] : List ℚ)]

/-- Witness for C6 (amended) at a concrete batch: `L = 3`, `num_actions = 2`. -/
theorem critic_forward_shape_and_slice_witness :
    (1 ≤ 2 ∧ pySize1 ([[1, 1]] : List (List ℕ)) = 2 ∧ 2 ≤ 3 - 1 ∧
        ∀ row ∈ [[[(1 : ℚ)], [2], [3]]], row.length = 3) ∧
      ∃ vs, critic_forward M0 [[[(1 : ℚ)], [2], [3]]] (some [[1, 1]]) false =
          .ok (.valuesOnly vs) ∧
        vs.length = [[[(1 : ℚ)], [2], [3]]].length ∧
        (∀ i, i < vs.length → (vs.getD i []).length = 2) ∧
        ∀ i j, i < vs.length → j < 2 →
          (vs.getD i []).getD j 0 =
            normalizeIf M0 (dot M0.value_head
              (([[[(1 : ℚ)], [2], [3]]].getD i []).getD (3 - 1 - 2 + j) [])) :=
  ⟨⟨by decide, by decide, by decide, by decide⟩,
    critic_forward_shape_and_slice M0 [[[(1 : ℚ)], [2], [3]]] [[1, 1]] 3 2
      (by decide) (by decide) (by decide) (by decide)⟩

/-- C10: the critic forward dereferences `action_mask` (via `.size(1)`)
before the `num_actions is None` test: with `action_mask = None` the call
always raises, and with an actual mask the `return outputs`-alone branch is
never the result. -/
theorem critic_forward_requires_action_mask (M : RewardModel)
    (hidden o : List (List (List ℚ))) (am : List (List ℕ)) (ro : Bool) :
    critic_forward M hidden none ro =
        .error "AttributeError: NoneType object has no attribute size" ∧
      critic_forward M hidden (some am) ro ≠ .ok (.raw o) := by
  constructor
  · rfl
  · cases ro <;> simp [critic_forward]

/-- Witness for C10 at a concrete batch. -/
theorem critic_forward_requires_action_mask_witness :
    critic_forward M0 [[[1], [2]]] none false =
        .error "AttributeError: NoneType object has no attribute size" ∧
      critic_forward M0 [[[1], [2]]] (some [[1]]) false ≠ .ok (.raw [[[1], [2]]]) :=
  critic_forward_requires_action_mask M0 [[[1], [2]]] [[[1], [2]]] [[1]] false

/-- C3: in evaluation mode, for each row the (pre-normalization,
`normalize_reward = false`) reward equals the value-head projection at the
highest index whose attention-mask entry is 1 in that row, for any placement
of zero-mask entries: the selected index `lastOneIdx` carries mask value 1
and every higher index carries 0. -/
theorem reward_forward_eval_selects_last_one (M : RewardModel)
    (hidden : List (List (List ℚ))) (am : List (List ℕ)) (L : ℕ)
    (hW : pySize1 am = L)
    (hrect : ∀ row ∈ am, row.length = L)
    (hmask : ∀ row ∈ am, (∀ x ∈ row, x ≤ 1) ∧ 1 ∈ row)
    (hh : ∀ row ∈ hidden, row.length = L) :
    ∃ rw, reward_forward {M with training := false, normalize_reward := false}
        hidden (some am) = .ok rw ∧
      ∀ i, i < hidden.length → i < am.length →
        (rw.getD i 0 =
            dot M.value_head
              ((hidden.getD i []).getD (lastOneIdx (am.getD i [])) []) ∧
          (am.getD i []).getD (lastOneIdx (am.getD i [])) 0 = 1 ∧
          ∀ k, lastOneIdx (am.getD i []) < k → k < (am.getD i []).length →
            (am.getD i []).getD k 0 = 0) := by
  have hred : reward_forward {M with training := false, normalize_reward := false}
      hidden (some am) =
      .ok (List.zipWith (fun v i => v.getD i 0)
        (hidden.map (fun row => List.map (fun h => dot M.value_head h) row))
        (am.map (fun row => pySize1 am - 1 - argmaxFirst row.reverse))) := rfl
  refine ⟨_, hred, ?_⟩
  intro i hi1 hi2
  have hrowmem : am.getD i [] ∈ am := by
    rw [getD_of_lt _ _ _ hi2]
    exact List.getElem_mem hi2
  have hrlen : (am.getD i []).length = L := hrect _ hrowmem
  obtain ⟨hle, hone⟩ := hmask _ hrowmem
  refine ⟨?_, getD_lastOneIdx_eq_one hone,
    fun k hk1 hk2 => getD_eq_zero_of_gt_lastOneIdx hle hone hk1 hk2⟩
  rw [getD_zipWith _ _ _ i (by simp [hi1]) (by simp [hi2]) ([] : List ℚ) (0 : ℕ),
    getD_map (fun row => List.map (fun h => dot M.value_head h) row) _ i hi1
      ([] : List (List ℚ)),
    getD_map (fun row => pySize1 am - 1 - argmaxFirst row.reverse) _ i hi2 ([] : List ℕ)]
  have heos : pySize1 am - 1 - argmaxFirst (am.getD i []).reverse
      = lastOneIdx (am.getD i []) := by
    rw [hW, argmaxFirst_eq_findIdx_one
        (fun x hx => hle x (List.mem_reverse.mp hx)) (List.mem_reverse.mpr hone)]
    unfold lastOneIdx
    rw [hrlen]
  rw [heos]
  have hhl : (hidden.getD i []).length = L := by
    rw [getD_of_lt _ _ _ hi1]
    exact hh _ (List.getElem_mem hi1)
  have hlt : lastOneIdx (am.getD i []) < (hidden.getD i []).length := by
    have h1 := lastOneIdx_lt_length hone
    omega
  rw [getD_map (fun h => dot M.value_head h) _ _ hlt ([] : List ℚ)]

/-- Witness for C3: a one-row left-padded-looking batch with mask `[1,1,0]`,
whose last 1 sits at index 1. -/
theorem reward_forward_eval_selects_last_one_witness :
    (pySize1 ([[1, 1, 0]] : List (List ℕ)) = 3 ∧
        (∀ row ∈ ([[1, 1, 0]] : List (List ℕ)), row.length = 3) ∧
        (∀ row ∈ ([[1, 1, 0]] : List (List ℕ)), (∀ x ∈ row, x ≤ 1) ∧ 1 ∈ row) ∧
        ∀ row ∈ [[[(2 : ℚ)], [3], [5]]], row.length = 3) ∧
      ∃ rw, reward_forward {M0 with training := false, normalize_reward := false}
          [[[(2 : ℚ)], [3], [5]]] (some [[1, 1, 0]]) = .ok rw ∧
        ∀ i, i < [[[(2 : ℚ)], [3], [5]]].length → i < ([[1, 1, 0]] : List (List ℕ)).length →
          (rw.getD i 0 =
              dot M0.value_head
                (([[[(2 : ℚ)], [3], [5]]].getD i []).getD
                  (lastOneIdx (([[1, 1, 0]] : List (List ℕ)).getD i [])) []) ∧
            (([[1, 1, 0]] : List (List ℕ)).getD i []).getD
                (lastOneIdx (([[1, 1, 0]] : List (List ℕ)).getD i [])) 0 = 1 ∧
            ∀ k, lastOneIdx (([[1, 1, 0]] : List (List ℕ)).getD i []) < k →
              k < (([[1, 1, 0]] : List (List ℕ)).getD i []).length →
                (([[1, 1, 0]] : List (List ℕ)).getD i []).getD k 0 = 0) :=
  ⟨⟨by decide, by decide, by decide, by decide⟩,
    reward_forward_eval_selects_last_one M0 [[[(2 : ℚ)], [3], [5]]] [[1, 1, 0]] 3
      (by decide) (by decide) (by decide) (by decide)⟩

/-- C9: when the registry lookup (or the class construction inside the
`try`) throws, `get_llm_for_sequence_regression` does not propagate that
error: the diagnostic is printed and the result does not depend on the
thrown error at all; the checkpoint's modelling-file resolution (class-name
derivation plus dynamic class loading) decides the outcome — its failure is
propagated verbatim, and its success lets construction proceed to a loaded
model. -/
theorem get_llm_registry_fallback (model_type : String)
    (hmt : model_type = "critic" ∨ model_type = "reward")
    (nr iv : Bool) (env : LoadEnv) (e : String)
    (hreg : env.registry = .error e) :
    Event.printFallback ∈ (get_llm_for_sequence_regression model_type nr iv env).1 ∧
      (∀ e2, get_llm_for_sequence_regression model_type nr iv
          { env with registry := .error e2 } =
        get_llm_for_sequence_regression model_type nr iv env) ∧
      (∀ d, resolve_from_modelling_file env = .error d →
        (get_llm_for_sequence_regression model_type nr iv env).2 = .error d) ∧
      ∀ names, resolve_from_modelling_file env = .ok names →
        env.from_pretrained = .ok () →
        ∃ m, (get_llm_for_sequence_regression model_type nr iv env).2 = .ok m := by
  have hred : get_llm_for_sequence_regression model_type nr iv env =
      match resolve_from_modelling_file env with
      | .ok _ => load_and_init [Event.loadConfig, Event.printFallback] model_type nr iv env
      | .error e2 => ([Event.loadConfig, Event.printFallback], .error e2) := by
    unfold get_llm_for_sequence_regression
    rw [if_pos hmt, hreg]
  have hred2 : ∀ e2, get_llm_for_sequence_regression model_type nr iv
      { env with registry := .error e2 } =
      match resolve_from_modelling_file env with
      | .ok _ => load_and_init [Event.loadConfig, Event.printFallback] model_type nr iv env
      | .error e3 => ([Event.loadConfig, Event.printFallback], .error e3) := by
    intro e2
    unfold get_llm_for_sequence_regression
    rw [if_pos hmt]
    rfl
  refine ⟨?_, ?_, ?_, ?_⟩
  · rw [hred]
    cases hres : resolve_from_modelling_file env with
    | ok names => exact mem_load_and_init_trace _ _ _ _ _ _ (by simp)
    | error d => simp
  · intro e2
    rw [hred2 e2, hred]
  · intro d hd
    rw [hred, hd]
  · intro names hnames hfp
    rw [hred, hnames]
    unfold load_and_init
    rw [hfp]
    cases iv with
    | true => exact ⟨_, rfl⟩
    | false => exact ⟨_, rfl⟩

/-- Witness for C9: a concrete environment whose registry lookup throws and
whose modelling file resolves, with `model_type = "reward"`. -/
theorem get_llm_registry_fallback_witness :
    ((("reward" : String) = "critic" ∨ ("reward" : String) = "reward") ∧
        envFallback.registry = .error "boom") ∧
      (Event.printFallback ∈
          (get_llm_for_sequence_regression "reward" false false envFallback).1 ∧
        (∀ e2, get_llm_for_sequence_regression "reward" false false
            { envFallback with registry := .error e2 } =
          get_llm_for_sequence_regression "reward" false false envFallback) ∧
        (∀ d, resolve_from_modelling_file envFallback = .error d →
          (get_llm_for_sequence_regression "reward" false false envFallback).2 =
            .error d) ∧
        ∀ names, resolve_from_modelling_file envFallback = .ok names →
          envFallback.from_pretrained = .ok () →
          ∃ m, (get_llm_for_sequence_regression "reward" false false envFallback).2 =
            .ok m) :=
  ⟨⟨Or.inr rfl, rfl⟩,
    get_llm_registry_fallback "reward" (Or.inr rfl) false false envFallback "boom" rfl⟩

end OpenRLHF
